import Mathlib

/-!
Shallow embedding of `main.py` (class `Catsu`), a CAT-protocol client for the
Yaesu FT-991a.

Modelling conventions:

* The serial transport is idealized as a finite byte stream `input : List Nat`
  available to be read, plus a trace of written command strings.  Each
  operation returns `(writes, outcome)` where `writes : List String` is the
  sequence of frames written to the port and `outcome : Except PyError α`.
  A blocking read on an exhausted stream never returns in Python (pyserial
  with no timeout); in this finite model it is mapped to
  `PyError.transportError`.
* Python exceptions are mapped to the spec's error taxonomy by raise site:
  bare `assert` failures on argument guards become `invalidArgument` (with
  the empty message, since a bare assert carries none), the terminator
  assert in `send_command` becomes `protocolFormatError`, `ValueError` from
  `int()` / `float()` becomes `parseError`.  `IndexError` (e.g. `cmd[-1]` on
  an empty string) and `UnicodeEncodeError` / `UnicodeDecodeError` keep
  dedicated constructors since they are distinct Python exception classes.
* Python `str(int)`, `str.zfill`, slicing, and `bytes.decode("ascii")`
  (code points below 128) are modelled faithfully below.
-/

inductive PyError where
  | invalidArgument (msg : String)
  | parseError
  | protocolFormatError
  | transportError
  | indexError
  | unicodeError
deriving DecidableEq

/-- The decimal digit character for `d` (meaningful for `d < 10`). -/
def digitChar (d : Nat) : Char := Char.ofNat (48 + d)

/-- Fuel-driven decimal digit expansion, most significant digit first. -/
def natDecimalAux : Nat → Nat → List Char
  | 0, _ => []
  | fuel + 1, n =>
    if n < 10 then [digitChar n]
    else natDecimalAux fuel (n / 10) ++ [digitChar (n % 10)]

/-- Decimal representation of a natural number, as produced by Python `str`. -/
def natDecimal (n : Nat) : String := ⟨natDecimalAux (n + 1) n⟩

/-- Python `str` on an `int`: a minus sign followed by the decimal digits of
the absolute value for negative numbers, plain digits otherwise. -/
def pyIntStr (n : Int) : String :=
  if n < 0 then "-" ++ natDecimal n.natAbs else natDecimal n.toNat

/-- Python `str.zfill(width)`: left-fill with `'0'` up to `width`, inserting
the padding after a leading sign character; a string already at least
`width` long is returned unchanged. -/
def pyZfill (s : String) (width : Nat) : String :=
  if width ≤ s.data.length then s
  else
    match s.data with
    | [] => ⟨List.replicate width '0'⟩
    | c :: rest =>
      if c = '-' ∨ c = '+' then ⟨c :: (List.replicate (width - s.data.length) '0' ++ rest)⟩
      else ⟨List.replicate (width - s.data.length) '0' ++ (c :: rest)⟩

/-- Whether every character of `s` is encodable by Python's `ascii` codec
(code point below 128). -/
def isAsciiStr (s : String) : Bool := s.data.all (fun c => c.toNat < 128)

/-- The byte sequence of an ASCII string, as sent over the serial port. -/
def strBytes (s : String) : List Nat := s.data.map (fun c => c.toNat)

/-- `Catsu.send_command`: `assert cmd[-1] == ";"` (an `IndexError` on the
empty string, the terminator assertion otherwise), then write
`cmd.encode("ascii")` to a freshly opened port.  Nothing is read. -/
def send_command (cmd : String) : List String × Except PyError Unit :=
  match cmd.data.getLast? with
  | none => ([], .error .indexError)
  | some c =>
    if c = ';' then
      if isAsciiStr cmd then ([cmd], .ok ()) else ([], .error .unicodeError)
    else ([], .error .protocolFormatError)

/-- Result of `Catsu.read_cmd`: the 2-character command code and the
parameter substring. -/
structure CmdResponse where
  command : String
  parameter : String
deriving DecidableEq

/-- The read loop of `Catsu.read_cmd`: read one byte at a time, decode it as
ASCII, accumulate until the decoded character is the terminator `';'`
(inclusive).  An exhausted stream blocks forever in the reference code and is
modelled as `transportError`. -/
def readUntilSemi : List Nat → List Char → Except PyError (List Char × List Nat)
  | [], _ => .error .transportError
  | b :: rest, acc =>
    if b < 128 then
      if Char.ofNat b = ';' then .ok (acc ++ [Char.ofNat b], rest)
      else readUntilSemi rest (acc ++ [Char.ofNat b])
    else .error .unicodeError

/-- `Catsu.read_cmd`: write `cmd`, read until the terminator, then split the
accumulated string `res` into `res[:2]` and `res[2:-1]`. -/
def read_cmd (cmd : String) (input : List Nat) : List String × Except PyError CmdResponse :=
  if isAsciiStr cmd then
    match readUntilSemi input [] with
    | .error e => ([cmd], .error e)
    | .ok (res, _) => ([cmd], .ok ⟨⟨res.take 2⟩, ⟨(res.drop 2).dropLast⟩⟩)
  else ([], .error .unicodeError)

/-- Digit value of an ASCII digit character, `none` otherwise. -/
def digitVal (c : Char) : Option Nat :=
  if 48 ≤ c.toNat ∧ c.toNat ≤ 57 then some (c.toNat - 48) else none

/-- Accumulate a decimal value over a run of digit characters. -/
def parseDigitsAux : List Char → Nat → Option Nat
  | [], acc => some acc
  | c :: rest, acc =>
    match digitVal c with
    | some d => parseDigitsAux rest (acc * 10 + d)
    | none => none

/-- A non-empty all-digit character list, as a natural number. -/
def parseDigits (l : List Char) : Option Nat :=
  if l = [] then none else parseDigitsAux l 0

/-- Python `int(str)` restricted to an optional sign followed by decimal
digits (surrounding whitespace, underscores and non-ASCII digits are not
modelled).  A malformed string raises `ValueError`, i.e. `parseError`. -/
def pyIntParse (s : String) : Except PyError Int :=
  match s.data with
  | '-' :: rest =>
    match parseDigits rest with
    | some n => .ok (-(n : Int))
    | none => .error .parseError
  | '+' :: rest =>
    match parseDigits rest with
    | some n => .ok (n : Int)
    | none => .error .parseError
  | l =>
    match parseDigits l with
    | some n => .ok (n : Int)
    | none => .error .parseError

/-- Blocking `ser.read(n)`: exactly `n` bytes, or (in this finite model) a
transport error when the stream cannot supply them. -/
def pyReadN (n : Nat) (input : List Nat) : Except PyError (List Nat) :=
  if n ≤ input.length then .ok (input.take n) else .error .transportError

/-- `bytes.decode("ascii")`: every byte must be below 128. -/
def decodeAscii (bs : List Nat) : Except PyError (List Char) :=
  if bs.all (fun b => b < 128) then .ok (bs.map Char.ofNat) else .error .unicodeError

/-- The transport round trip shared by both branches of
`Catsu.read_vfo_frequency`: write `cmd`, read exactly 12 bytes, then return
`int(res.decode("ascii")[2:-1])`. -/
def readVfoWith (cmd : String) (input : List Nat) : List String × Except PyError Int :=
  match pyReadN 12 input with
  | .error e => ([cmd], .error e)
  | .ok bs =>
    match decodeAscii bs with
    | .error e => ([cmd], .error e)
    | .ok cs => ([cmd], pyIntParse ⟨(cs.drop 2).dropLast⟩)

/-- `Catsu.read_vfo_frequency`: `"A"` selects `FA;`, `"B"` selects `FB;`,
anything else raises before any I/O with a message naming the bad value. -/
def read_vfo_frequency (vfo : String) (input : List Nat) : List String × Except PyError Int :=
  if vfo = "A" then readVfoWith "FA;" input
  else if vfo = "B" then readVfoWith "FB;" input
  else ([], .error (.invalidArgument ("VFO " ++ vfo ++ " is not valid. Expected A or B")))

/-- `Catsu.read_vfo_a`. -/
def read_vfo_a (input : List Nat) : List String × Except PyError Int :=
  read_vfo_frequency "A" input

/-- `Catsu.read_vfo_b`. -/
def read_vfo_b (input : List Nat) : List String × Except PyError Int :=
  read_vfo_frequency "B" input

/-- `Catsu.set_frequency_hz_vfo_a`: `assert len(str(hz)) <= 9`, then send
`FA` + `str(hz).zfill(9)` + `;`. -/
def set_frequency_hz_vfo_a (hz : Int) : List String × Except PyError Unit :=
  if (pyIntStr hz).data.length ≤ 9 then
    send_command ("FA" ++ pyZfill (pyIntStr hz) 9 ++ ";")
  else ([], .error (.invalidArgument ""))

/-- `Catsu.set_frequency_hz_vfo_b`: as for VFO A with prefix `FB`. -/
def set_frequency_hz_vfo_b (hz : Int) : List String × Except PyError Unit :=
  if (pyIntStr hz).data.length ≤ 9 then
    send_command ("FB" ++ pyZfill (pyIntStr hz) 9 ++ ";")
  else ([], .error (.invalidArgument ""))

/-- The exact value of a parsed Python decimal literal: the digit string
as an integer mantissa, a base-ten exponent, and a sign.  Python stores the
literal as an IEEE-754 double; that rounding step is modelled as exact
(it is exact for all literals appearing in the properties checked here). -/
structure PyFloat where
  neg : Bool
  mant : Nat
  exp : Int
deriving DecidableEq

/-- Split a leading run of decimal digits off a character list. -/
def takeDigits : List Char → List Nat × List Char
  | [] => ([], [])
  | c :: rest =>
    match digitVal c with
    | some d =>
      match takeDigits rest with
      | (ds, r) => (d :: ds, r)
    | none => ([], c :: rest)

/-- The value of a most-significant-first digit list. -/
def digitsToNat (ds : List Nat) : Nat := ds.foldl (fun a d => a * 10 + d) 0

/-- A complete run of digits (nothing left over, at least one digit). -/
def parseAllDigits (l : List Char) : Option Nat :=
  match takeDigits l with
  | (ds, r) => if ds = [] ∨ r ≠ [] then none else some (digitsToNat ds)

/-- The signed exponent after `e`/`E` in a float literal. -/
def parseExpTail (l : List Char) : Option Int :=
  match l with
  | '+' :: r => (parseAllDigits r).map (fun n => (n : Int))
  | '-' :: r => (parseAllDigits r).map (fun n => -(n : Int))
  | r => (parseAllDigits r).map (fun n => (n : Int))

/-- Mantissa part `digits [. digits]` of a float literal: its value as
`(mantissa, exponent)` plus the unconsumed tail.  At least one digit must be
present on one side of the dot. -/
def parseMantissa (l : List Char) : Option (Nat × Int × List Char) :=
  match takeDigits l with
  | (ip, r1) =>
    match r1 with
    | '.' :: r2 =>
      match takeDigits r2 with
      | (fp, r3) =>
        if ip = [] ∧ fp = [] then none
        else some (digitsToNat (ip ++ fp), -(fp.length : Int), r3)
    | _ => if ip = [] then none else some (digitsToNat ip, 0, r1)

/-- Unsigned float literal: mantissa part with an optional `e`/`E` exponent. -/
def parseUnsignedFloat (l : List Char) : Option (Nat × Int) :=
  match parseMantissa l with
  | none => none
  | some (m, e, rest) =>
    match rest with
    | [] => some (m, e)
    | 'e' :: r => (parseExpTail r).map (fun ev => (m, e + ev))
    | 'E' :: r => (parseExpTail r).map (fun ev => (m, e + ev))
    | _ => none

/-- Python `float(str)` on decimal literals (optional sign, digits with an
optional dot, optional exponent; whitespace, underscores, `inf` and `nan`
forms are not modelled).  A malformed string raises `ValueError`, i.e.
`parseError`. -/
def pyFloatParse (s : String) : Except PyError PyFloat :=
  match s.data with
  | '+' :: rest =>
    match parseUnsignedFloat rest with
    | some (m, e) => .ok ⟨false, m, e⟩
    | none => .error .parseError
  | '-' :: rest =>
    match parseUnsignedFloat rest with
    | some (m, e) => .ok ⟨true, m, e⟩
    | none => .error .parseError
  | l =>
    match parseUnsignedFloat l with
    | some (m, e) => .ok ⟨false, m, e⟩
    | none => .error .parseError

/-- Python `int(f * 10^k)` for a parsed decimal `f`: scale the exponent and
truncate toward zero (natural-number division of the magnitude). -/
def pyIntTimesPow10 (f : PyFloat) (k : Nat) : Int :=
  let e := f.exp + (k : Int)
  let mag : Nat := if 0 ≤ e then f.mant * 10 ^ e.toNat else f.mant / 10 ^ (-e).toNat
  if f.neg then -(mag : Int) else (mag : Int)

/-- `Catsu.set_freq_human_readable_vfo_a`: dispatch on the last character
(`seqFreqStr[-1]`, an `IndexError` on the empty string): `K` multiplies the
float value of the rest by 1000, `M` by 1000000, anything else takes
`int(seqFreqStr)`; then delegate to `set_frequency_hz_vfo_a`. -/
def set_freq_human_readable_vfo_a (s : String) : List String × Except PyError Unit :=
  match s.data.getLast? with
  | none => ([], .error .indexError)
  | some c =>
    if c = 'K' then
      match pyFloatParse ⟨s.data.dropLast⟩ with
      | .error e => ([], .error e)
      | .ok f => set_frequency_hz_vfo_a (pyIntTimesPow10 f 3)
    else if c = 'M' then
      match pyFloatParse ⟨s.data.dropLast⟩ with
      | .error e => ([], .error e)
      | .ok f => set_frequency_hz_vfo_a (pyIntTimesPow10 f 6)
    else
      match pyIntParse s with
      | .error e => ([], .error e)
      | .ok n => set_frequency_hz_vfo_a n

/-- `Catsu.set_freq_human_readable_vfo_b`: as for VFO A. -/
def set_freq_human_readable_vfo_b (s : String) : List String × Except PyError Unit :=
  match s.data.getLast? with
  | none => ([], .error .indexError)
  | some c =>
    if c = 'K' then
      match pyFloatParse ⟨s.data.dropLast⟩ with
      | .error e => ([], .error e)
      | .ok f => set_frequency_hz_vfo_b (pyIntTimesPow10 f 3)
    else if c = 'M' then
      match pyFloatParse ⟨s.data.dropLast⟩ with
      | .error e => ([], .error e)
      | .ok f => set_frequency_hz_vfo_b (pyIntTimesPow10 f 6)
    else
      match pyIntParse s with
      | .error e => ([], .error e)
      | .ok n => set_frequency_hz_vfo_b n

/-- `Catsu.set_current_memory_channel`: `assert 1 <= n <= 117`, then send
`MC` + `str(n).zfill(3)` + `;`. -/
def set_current_memory_channel (n : Int) : List String × Except PyError Unit :=
  if 1 ≤ n ∧ n ≤ 117 then
    send_command ("MC" ++ pyZfill (pyIntStr n) 3 ++ ";")
  else ([], .error (.invalidArgument ""))

/-- The `modes_dict` table from `Catsu.__init__`. -/
def modes_dict : List (String × String) :=
  [("LSB", "1"), ("USB", "2"), ("CW-U", "3"), ("FM", "4"), ("AM", "5"),
   ("RTTY-LSB", "6"), ("CW-L", "7"), ("DATA-LSB", "8"), ("RTTY-USB", "9"),
   ("DATA-FM", "A"), ("FM-N", "B"), ("DATA-USB", "C"), ("AM-N", "D"),
   ("C4FM", "E")]

/-- `Catsu.set_operating_mode`: `assert mode in modes_dict`, then send
`MD0` + the table's code + `;`. -/
def set_operating_mode (mode : String) : List String × Except PyError Unit :=
  match modes_dict.lookup mode with
  | some code => send_command ("MD0" ++ code ++ ";")
  | none => ([], .error (.invalidArgument ""))

/-- The fixed-offset decode of a memory-channel parameter string;
field offsets as in `Catsu.read_memory_channel`. -/
structure MemoryChannelRecord where
  memory_channel : String
  vfo_a_frequency_hz : String
  clarifier_direction : String
  rx_clar_status : String
  tx_clar_status : String
  mode : String
  vfo_or_memory : String
  ctcss_dcs : String
  nothing : String
  simplex_or_plus_or_minus_shift : String
deriving DecidableEq

/-- Python slice `s[a:b]` for `a ≤ b` (never out of range). -/
def pySlice (s : String) (a b : Nat) : String := ⟨(s.data.take b).drop a⟩

/-- The `try`-block of `Catsu.read_memory_channel`: all slice fields are
total, but the plain index `result[24]` raises `IndexError` on a parameter
shorter than 25 characters, and the bare `except:` then yields `None`. -/
def decodeMemoryChannelRecord (p : String) : Option MemoryChannelRecord :=
  if 25 ≤ p.data.length then
    some { memory_channel := pySlice p 0 3
         , vfo_a_frequency_hz := pySlice p 3 12
         , clarifier_direction := pySlice p 12 17
         , rx_clar_status := pySlice p 17 18
         , tx_clar_status := pySlice p 18 19
         , mode := pySlice p 19 20
         , vfo_or_memory := pySlice p 20 21
         , ctcss_dcs := pySlice p 21 22
         , nothing := pySlice p 22 24
         , simplex_or_plus_or_minus_shift := ⟨(p.data.drop 24).take 1⟩ }
  else none

/-- `Catsu.read_memory_channel`: first `set_current_memory_channel(n)` (whose
assert propagates), then `read_cmd("MR" + str(n).zfill(3) + ";")` against
`input`, then decode the parameter, with decode failure giving `None`. -/
def read_memory_channel (n : Int) (input : List Nat) :
    List String × Except PyError (Option MemoryChannelRecord) :=
  match set_current_memory_channel n with
  | (w1, .error e) => (w1, .error e)
  | (w1, .ok _) =>
    match read_cmd ("MR" ++ pyZfill (pyIntStr n) 3 ++ ";") input with
    | (w2, .error e) => (w1 ++ w2, .error e)
    | (w2, .ok r) => (w1 ++ w2, .ok (decodeMemoryChannelRecord r.parameter))

/-- Spec-side: a natural number's decimal representation zero-padded on the
left to 9 digits (the frequency field of `FA`/`FB` commands). -/
def zeroPad9 (n : Nat) : String :=
  ⟨List.replicate (9 - (natDecimal n).data.length) '0' ++ (natDecimal n).data⟩

/-- Spec-side: a natural number's decimal representation zero-padded on the
left to 3 digits (the channel field of `MC`/`MR` commands). -/
def zeroPad3 (n : Nat) : String :=
  ⟨List.replicate (3 - (natDecimal n).data.length) '0' ++ (natDecimal n).data⟩

/-- Spec-side: the exact rational value of a parsed decimal literal. -/
def ratValue (f : PyFloat) : ℚ :=
  (if f.neg then -(f.mant : ℚ) else (f.mant : ℚ)) * (10 : ℚ) ^ f.exp

/-- Spec-side: truncation toward zero (Python `int()` on a number). -/
def ratTrunc (q : ℚ) : Int := if q < 0 then -⌊-q⌋ else ⌊q⌋

theorem natDecimalAux_mem (fuel : Nat) :
    ∀ n c, c ∈ natDecimalAux fuel n → ∃ d, d < 10 ∧ c = digitChar d := by
  induction fuel with
  | zero => intro n c hc; simp [natDecimalAux] at hc
  | succ fuel ih =>
    intro n c hc
    simp only [natDecimalAux] at hc
    by_cases hn : n < 10
    · rw [if_pos hn] at hc
      simp only [List.mem_singleton] at hc
      exact ⟨n, hn, hc⟩
    · rw [if_neg hn] at hc
      rcases List.mem_append.mp hc with h1 | h2
      · exact ih _ _ h1
      · simp only [List.mem_singleton] at h2
        exact ⟨n % 10, Nat.mod_lt _ (by omega), h2⟩

theorem natDecimalAux_length_le (fuel : Nat) :
    ∀ k n, n < fuel → n < 10 ^ k → 1 ≤ k → (natDecimalAux fuel n).length ≤ k := by
  induction fuel with
  | zero => intro k n h _ _; omega
  | succ fuel ih =>
    intro k n hfuel hpow hk
    simp only [natDecimalAux]
    by_cases hn : n < 10
    · rw [if_pos hn]; simpa using hk
    · rw [if_neg hn]
      have hdiv : n / 10 < n := Nat.div_lt_self (by omega) (by omega)
      have hk2 : 2 ≤ k := by
        by_contra hcon
        have hk1 : k = 1 := by omega
        subst hk1
        simp only [pow_one] at hpow
        omega
      have hpow' : n / 10 < 10 ^ (k - 1) := by
        rw [Nat.div_lt_iff_lt_mul (by omega : 0 < 10)]
        have hmul : 10 ^ (k - 1) * 10 = 10 ^ k := by
          rw [← pow_succ]
          congr 1
          omega
        omega
      have hrec := ih (k - 1) (n / 10) (by omega) hpow' (by omega)
      simp only [List.length_append, List.length_singleton]
      omega

theorem natDecimalAux_length_ge (fuel : Nat) :
    ∀ k n, n < fuel → 10 ^ k ≤ n → k + 1 ≤ (natDecimalAux fuel n).length := by
  induction fuel with
  | zero => intro k n h; omega
  | succ fuel ih =>
    intro k n hfuel hpow
    simp only [natDecimalAux]
    by_cases hn : n < 10
    · rw [if_pos hn]
      have hk : k = 0 := by
        by_contra hcon
        have h10 : 10 ^ 1 ≤ 10 ^ k := Nat.pow_le_pow_right (by omega) (by omega)
        simp only [pow_one] at h10
        omega
      subst hk
      simp
    · rw [if_neg hn]
      by_cases hk : k = 0
      · subst hk
        simp only [List.length_append, List.length_singleton]
        omega
      · have hdiv10 : 10 ^ (k - 1) ≤ n / 10 := by
          rw [Nat.le_div_iff_mul_le (by omega : 0 < 10)]
          have hmul : 10 ^ (k - 1) * 10 = 10 ^ k := by
            rw [← pow_succ]
            congr 1
            omega
          omega
        have hlt : n / 10 < fuel := by
          have := Nat.div_lt_self (show 0 < n by omega) (show 1 < 10 by omega)
          omega
        have hrec := ih (k - 1) (n / 10) hlt hdiv10
        simp only [List.length_append, List.length_singleton]
        omega

theorem natDecimalAux_ne_nil (fuel n : Nat) (h : 0 < fuel) :
    natDecimalAux fuel n ≠ [] := by
  cases fuel with
  | zero => omega
  | succ fuel =>
    simp only [natDecimalAux]
    by_cases hn : n < 10
    · rw [if_pos hn]; simp
    · rw [if_neg hn]; simp

theorem natDecimal_length_le (n k : Nat) (hpow : n < 10 ^ k) (hk : 1 ≤ k) :
    (natDecimal n).data.length ≤ k :=
  natDecimalAux_length_le (n + 1) k n (by omega) hpow hk

theorem natDecimal_length_ge (n k : Nat) (hpow : 10 ^ k ≤ n) :
    k + 1 ≤ (natDecimal n).data.length :=
  natDecimalAux_length_ge (n + 1) k n (by omega) hpow

theorem natDecimal_mem (n : Nat) (c : Char) (hc : c ∈ (natDecimal n).data) :
    48 ≤ c.toNat ∧ c.toNat ≤ 57 := by
  obtain ⟨d, hd, rfl⟩ := natDecimalAux_mem (n + 1) n c hc
  have hball : ∀ e, e < 10 → 48 ≤ (digitChar e).toNat ∧ (digitChar e).toNat ≤ 57 := by decide
  exact hball d hd

theorem natDecimal_ne_nil (n : Nat) : (natDecimal n).data ≠ [] :=
  natDecimalAux_ne_nil (n + 1) n (by omega)

theorem pyIntStr_nonneg (n : Int) (h : 0 ≤ n) : pyIntStr n = natDecimal n.toNat := by
  rw [pyIntStr, if_neg (by omega)]

theorem pyZfill_digits (s : String) (w : Nat)
    (hd : ∀ c ∈ s.data, 48 ≤ c.toNat ∧ c.toNat ≤ 57) (hne : s.data ≠ []) :
    pyZfill s w = ⟨List.replicate (w - s.data.length) '0' ++ s.data⟩ := by
  obtain ⟨c, rest, hs⟩ : ∃ c rest, s.data = c :: rest := by
    cases hcase : s.data with
    | nil => exact absurd hcase hne
    | cons c rest => exact ⟨c, rest, rfl⟩
  by_cases hw : w ≤ s.data.length
  · rw [pyZfill, if_pos hw]
    have hzero : w - s.data.length = 0 := by omega
    rw [hzero]
    cases s
    rfl
  · have hc := hd c (by rw [hs]; exact List.mem_cons_self c rest)
    have hcne : ¬(c = '-' ∨ c = '+') := by
      rintro (rfl | rfl) <;> exact absurd hc (by decide)
    simp only [pyZfill, hs, if_neg hw, if_neg hcne]
    rw [hs] at hw
    rw [if_neg hw]

theorem isAsciiStr_of (s : String) (h : ∀ c ∈ s.data, c.toNat < 128) :
    isAsciiStr s = true := by
  simp only [isAsciiStr, List.all_eq_true, decide_eq_true_eq]
  exact h

theorem send_command_ok (s : String) (hlast : s.data.getLast? = some ';')
    (hascii : isAsciiStr s = true) : send_command s = ([s], .ok ()) := by
  simp [send_command, hlast, hascii]

deriving instance DecidableEq for Except

theorem zeroPadList_ascii (k n : Nat) :
    ∀ c ∈ (List.replicate k '0' ++ (natDecimal n).data), c.toNat < 128 := by
  intro c hc
  rcases List.mem_append.mp hc with h | h
  · rw [List.eq_of_mem_replicate h]; decide
  · have := natDecimal_mem n c h; omega

theorem frame_ok (p mid : String)
    (hp : ∀ c ∈ p.data, c.toNat < 128) (hm : ∀ c ∈ mid.data, c.toNat < 128) :
    send_command (p ++ mid ++ ";") = ([p ++ mid ++ ";"], .ok ()) := by
  apply send_command_ok
  · rw [String.data_append, String.data_append]
    exact List.getLast?_concat _
  · apply isAsciiStr_of
    intro c hc
    rw [String.data_append, String.data_append] at hc
    rcases List.mem_append.mp hc with h | h
    · rcases List.mem_append.mp h with h1 | h1
      · exact hp c h1
      · exact hm c h1
    · simp only [List.mem_singleton] at h
      subst h
      decide

theorem set_frequency_format (h : Int) (h0 : 0 ≤ h) (h9 : h ≤ 999999999) :
    pyZfill (pyIntStr h) 9 = zeroPad9 h.toNat ∧ (pyIntStr h).data.length ≤ 9 := by
  rw [pyIntStr_nonneg h h0]
  have hlt : h.toNat < 10 ^ 9 := by norm_num; omega
  have hlen : (natDecimal h.toNat).data.length ≤ 9 := natDecimal_length_le _ 9 hlt (by omega)
  refine ⟨?_, hlen⟩
  rw [pyZfill_digits _ 9 (natDecimal_mem h.toNat) (natDecimal_ne_nil h.toNat)]
  rfl

/-- C1: for `0 ≤ h ≤ 999999999`, `set_frequency_hz_vfo_a` transmits exactly
`FA` + the decimal representation of `h` zero-padded to 9 digits + `;`, and
`set_frequency_hz_vfo_b` the same with prefix `FB`. -/
theorem set_frequency_hz_in_range_builds_command (h : Int) (h0 : 0 ≤ h) (h9 : h ≤ 999999999) :
    set_frequency_hz_vfo_a h = (["FA" ++ zeroPad9 h.toNat ++ ";"], .ok ())
    ∧ set_frequency_hz_vfo_b h = (["FB" ++ zeroPad9 h.toNat ++ ";"], .ok ()) := by
  obtain ⟨hpad, hlen⟩ := set_frequency_format h h0 h9
  have hascii : ∀ c ∈ (zeroPad9 h.toNat).data, c.toNat < 128 := zeroPadList_ascii _ _
  constructor
  · rw [set_frequency_hz_vfo_a, if_pos hlen, hpad]
    exact frame_ok "FA" _ (by decide) hascii
  · rw [set_frequency_hz_vfo_b, if_pos hlen, hpad]
    exact frame_ok "FB" _ (by decide) hascii

theorem set_frequency_hz_in_range_builds_command_witness :
    set_frequency_hz_vfo_a 14250000 = (["FA014250000;"], .ok ())
    ∧ set_frequency_hz_vfo_b 14250000 = (["FB014250000;"], .ok ()) := by
  obtain ⟨ha, hb⟩ := set_frequency_hz_in_range_builds_command 14250000 (by decide) (by decide)
  exact ⟨ha.trans (by decide), hb.trans (by decide)⟩

/-- C2 counterexample: `set_frequency_hz_vfo_a(-1)` does not fail — the
9-character bound on `str(-1)` passes, the sign-aware `zfill` produces
`-00000001`, and the frame `FA-00000001;` is transmitted (likewise VFO B), so
a negative `hz` is not rejected with `InvalidArgument` and a transport write
does occur. -/
theorem set_frequency_hz_negative_transmits :
    set_frequency_hz_vfo_a (-1) = (["FA-00000001;"], .ok ())
    ∧ set_frequency_hz_vfo_b (-1) = (["FB-00000001;"], .ok ()) := by decide

/-- C2 (amended): both `set_frequency_hz` variants fail with
`InvalidArgument` and perform no transport write exactly when Python's
decimal representation of `hz` (sign included) exceeds 9 characters, i.e.
when `hz ≥ 10^9` or `hz ≤ -10^8`. -/
theorem set_frequency_hz_overlong_repr_rejected (hz : Int)
    (hover : 1000000000 ≤ hz ∨ hz ≤ -100000000) :
    set_frequency_hz_vfo_a hz = ([], .error (.invalidArgument ""))
    ∧ set_frequency_hz_vfo_b hz = ([], .error (.invalidArgument "")) := by
  have hlen : ¬(pyIntStr hz).data.length ≤ 9 := by
    rcases hover with hpos | hneg
    · rw [pyIntStr_nonneg hz (by omega)]
      have hge : 10 ^ 9 ≤ hz.toNat := by norm_num; omega
      have := natDecimal_length_ge hz.toNat 9 hge
      omega
    · rw [pyIntStr, if_pos (by omega : hz < 0)]
      have hge : 10 ^ 8 ≤ hz.natAbs := by norm_num; omega
      have := natDecimal_length_ge hz.natAbs 8 hge
      rw [String.data_append, List.length_append]
      have hone : ("-" : String).data.length = 1 := by decide
      omega
  constructor
  · rw [set_frequency_hz_vfo_a, if_neg hlen]
  · rw [set_frequency_hz_vfo_b, if_neg hlen]

theorem set_frequency_hz_overlong_repr_rejected_witness :
    set_frequency_hz_vfo_a 1000000000 = ([], .error (.invalidArgument ""))
    ∧ set_frequency_hz_vfo_b 1000000000 = ([], .error (.invalidArgument "")) :=
  set_frequency_hz_overlong_repr_rejected 1000000000 (Or.inl (by decide))

theorem set_current_memory_channel_out_of_range (n : Int) (h : ¬(1 ≤ n ∧ n ≤ 117)) :
    set_current_memory_channel n = ([], .error (.invalidArgument "")) := by
  rw [set_current_memory_channel, if_neg h]

theorem set_current_memory_channel_in_range (n : Int) (h1 : 1 ≤ n) (h2 : n ≤ 117) :
    pyZfill (pyIntStr n) 3 = zeroPad3 n.toNat
    ∧ set_current_memory_channel n = (["MC" ++ zeroPad3 n.toNat ++ ";"], .ok ()) := by
  have hpad : pyZfill (pyIntStr n) 3 = zeroPad3 n.toNat := by
    rw [pyIntStr_nonneg n (by omega)]
    rw [pyZfill_digits _ 3 (natDecimal_mem n.toNat) (natDecimal_ne_nil n.toNat)]
    rfl
  refine ⟨hpad, ?_⟩
  have hlt : n.toNat < 10 ^ 3 := by norm_num; omega
  have hlen : (pyIntStr n).data.length ≤ 3 := by
    rw [pyIntStr_nonneg n (by omega)]
    exact natDecimal_length_le _ 3 hlt (by omega)
  rw [set_current_memory_channel, if_pos ⟨h1, h2⟩, hpad]
  exact frame_ok "MC" _ (by decide) (zeroPadList_ascii _ _)

/-- C6: `set_current_memory_channel(n)` transmits `MC` + `n` zero-padded to
3 digits + `;` when `1 ≤ n ≤ 117` and fails with `InvalidArgument` (no
write) otherwise; in particular 0 and 118 fail while 1 and 117 produce
`MC001;` and `MC117;`. -/
theorem set_current_memory_channel_spec (n : Int) :
    (1 ≤ n ∧ n ≤ 117 →
      set_current_memory_channel n = (["MC" ++ zeroPad3 n.toNat ++ ";"], .ok ()))
    ∧ (¬(1 ≤ n ∧ n ≤ 117) →
      set_current_memory_channel n = ([], .error (.invalidArgument "")))
    ∧ set_current_memory_channel 0 = ([], .error (.invalidArgument ""))
    ∧ set_current_memory_channel 118 = ([], .error (.invalidArgument ""))
    ∧ set_current_memory_channel 1 = (["MC001;"], .ok ())
    ∧ set_current_memory_channel 117 = (["MC117;"], .ok ()) := by
  refine ⟨fun hr => (set_current_memory_channel_in_range n hr.1 hr.2).2,
    set_current_memory_channel_out_of_range n, by decide, by decide, by decide, by decide⟩

theorem set_current_memory_channel_spec_witness :
    set_current_memory_channel 14 = (["MC014;"], .ok ()) := by
  have h := (set_current_memory_channel_spec 14).1 (by decide)
  exact h.trans (by decide)

/-- C10: for `n` outside `1..117`, `read_memory_channel n` fails with the
same `InvalidArgument` error as `set_current_memory_channel n` (to which it
delegates channel selection) before any `MC` or `MR` write, so an
out-of-range channel never produces the absent (`none`) result. -/
theorem read_memory_channel_out_of_range_spec (n : Int) (input : List Nat)
    (h : ¬(1 ≤ n ∧ n ≤ 117)) :
    read_memory_channel n input = ([], .error (.invalidArgument ""))
    ∧ set_current_memory_channel n = ([], .error (.invalidArgument "")) := by
  have h1 := set_current_memory_channel_out_of_range n h
  exact ⟨by rw [read_memory_channel, h1], h1⟩

theorem read_memory_channel_out_of_range_spec_witness :
    read_memory_channel 0 [] = ([], .error (.invalidArgument ""))
    ∧ set_current_memory_channel 0 = ([], .error (.invalidArgument "")) :=
  read_memory_channel_out_of_range_spec 0 [] (by decide)

/-- C8 counterexample: `send_command("")` fails with `IndexError` (from
`cmd[-1]` on the empty string), not with the `ProtocolFormatError` that the
claim promises for every string lacking the trailing terminator. -/
theorem send_command_empty_string_index_error :
    send_command "" = ([], .error .indexError) := by decide

/-- C8 (amended): every nonempty `cmd` not ending in `;` fails with
`ProtocolFormatError` and zero writes; the empty string instead fails with
`IndexError` (still zero writes); every ASCII `cmd` ending in `;` is written
verbatim with no response read, while a non-ASCII `cmd` ending in `;` fails
at `encode("ascii")` with zero writes. -/
theorem send_command_spec :
    (∀ cmd : String, cmd.data ≠ [] → cmd.data.getLast? ≠ some ';' →
      send_command cmd = ([], .error .protocolFormatError))
    ∧ (∀ cmd : String, cmd.data.getLast? = some ';' → isAsciiStr cmd = true →
      send_command cmd = ([cmd], .ok ()))
    ∧ (∀ cmd : String, cmd.data.getLast? = some ';' → isAsciiStr cmd = false →
      send_command cmd = ([], .error .unicodeError))
    ∧ send_command "" = ([], .error .indexError) := by
  refine ⟨?_, ?_, ?_, by decide⟩
  · intro cmd hne hlast
    rcases List.eq_nil_or_concat cmd.data with hnil | ⟨l2, a, hconcat⟩
    · exact absurd hnil hne
    · rw [List.concat_eq_append] at hconcat
      have hl : cmd.data.getLast? = some a := by
        rw [hconcat]; exact List.getLast?_concat _
      have ha : ¬a = ';' := fun hsem => hlast (by rw [hl, hsem])
      simp only [send_command, hl, if_neg ha]
  · intro cmd hlast hascii
    simp [send_command, hlast, hascii]
  · intro cmd hlast hascii
    simp [send_command, hlast, hascii]

theorem send_command_spec_witness :
    send_command "ab" = ([], .error .protocolFormatError) :=
  send_command_spec.1 "ab" (by decide) (by decide)

theorem modes_lookup_code (mode code : String) (h : modes_dict.lookup mode = some code) :
    code ∈ ["1", "2", "3", "4", "5", "6", "7", "8", "9", "A", "B", "C", "D", "E"] := by
  simp only [modes_dict, List.lookup_cons, List.lookup_nil] at h
  repeat' split at h
  all_goals simp_all

/-- C9: for every mode name in `modes_dict`, `set_operating_mode` transmits
`MD0` + the table's one-character code + `;` (so `FM` gives `MD04;`), and
for every name outside the table it fails with `InvalidArgument` and issues
no command. -/
theorem set_operating_mode_spec :
    (∀ mode code, modes_dict.lookup mode = some code →
      set_operating_mode mode = (["MD0" ++ code ++ ";"], .ok ()))
    ∧ (∀ mode, modes_dict.lookup mode = none →
      set_operating_mode mode = ([], .error (.invalidArgument "")))
    ∧ set_operating_mode "FM" = (["MD04;"], .ok ()) := by
  refine ⟨?_, ?_, by decide⟩
  · intro mode code h
    have hmem := modes_lookup_code mode code h
    have hascii : ∀ c ∈ code.data, c.toNat < 128 := by
      fin_cases hmem <;> decide
    simp only [set_operating_mode, h]
    exact frame_ok "MD0" code (by decide) hascii
  · intro mode h
    simp only [set_operating_mode, h]

theorem set_operating_mode_spec_witness :
    set_operating_mode "C4FM" = (["MD0" ++ "E" ++ ";"], .ok ()) :=
  set_operating_mode_spec.1 "C4FM" "E" (by decide)

theorem charOfNat_ne_semi (b : Nat) (hb : b < 128) (hne : b ≠ 59) :
    Char.ofNat b ≠ ';' := by
  have hgen : ∀ x, x < 128 → x ≠ 59 → Char.ofNat x ≠ ';' := by decide
  exact hgen b hb hne

theorem readUntilSemi_split (post : List Nat) :
    ∀ pre acc, (∀ b ∈ pre, b < 128) → (59 : Nat) ∉ pre →
      readUntilSemi (pre ++ 59 :: post) acc
        = .ok (acc ++ pre.map Char.ofNat ++ [';'], post) := by
  intro pre
  induction pre with
  | nil =>
    intro acc _ _
    simp only [List.nil_append, readUntilSemi, List.map_nil, List.append_nil]
    norm_num
  | cons b rest ih =>
    intro acc hlt hns
    have hb : b < 128 := hlt b (List.mem_cons_self b rest)
    have hbne : b ≠ 59 := fun hcc => hns (by rw [hcc]; exact List.mem_cons_self 59 rest)
    have hchar : Char.ofNat b ≠ ';' := charOfNat_ne_semi b hb hbne
    simp only [List.cons_append, readUntilSemi, if_pos hb, if_neg hchar, List.append_eq]
    rw [ih (acc ++ [Char.ofNat b]) (fun c hc => hlt c (List.mem_cons_of_mem b hc))
      (fun hc => hns (List.mem_cons_of_mem b hc))]
    simp [List.append_assoc]

theorem readUntilSemi_no_semi :
    ∀ inp acc, (59 : Nat) ∉ inp → ∃ e, readUntilSemi inp acc = .error e := by
  intro inp
  induction inp with
  | nil => intro acc _; exact ⟨.transportError, rfl⟩
  | cons b rest ih =>
    intro acc hmem
    by_cases hb : b < 128
    · have hbne : b ≠ 59 := fun hcc => hmem (by rw [hcc]; exact List.mem_cons_self 59 rest)
      have hchar : Char.ofNat b ≠ ';' := charOfNat_ne_semi b hb hbne
      simp only [readUntilSemi, if_pos hb, if_neg hchar]
      exact ih _ (fun hc => hmem (List.mem_cons_of_mem b hc))
    · exact ⟨.unicodeError, by simp only [readUntilSemi, if_neg hb]⟩

theorem read_cmd_split_ok (cmd : String) (pre post : List Nat)
    (hcmd : isAsciiStr cmd = true) (hpre : ∀ b ∈ pre, b < 128) (hns : (59 : Nat) ∉ pre) :
    read_cmd cmd (pre ++ 59 :: post)
      = ([cmd], .ok ⟨⟨(pre.map Char.ofNat ++ [';']).take 2⟩,
                     ⟨((pre.map Char.ofNat ++ [';']).drop 2).dropLast⟩⟩) := by
  rw [read_cmd, if_pos hcmd, readUntilSemi_split post pre [] hpre hns]
  simp

/-- C4 counterexample: on the byte stream `[200, 59]` the first terminator
sits at index 1, yet `read_cmd` fails with a decode error on the non-ASCII
byte 200 instead of returning the command/parameter split the claim
promises for every byte stream. -/
theorem read_cmd_nonascii_byte_fails :
    read_cmd "FA;" [200, 59] = (["FA;"], .error .unicodeError) := by decide

/-- C4 (amended): for every byte stream whose bytes before the first
terminator byte 59 (`;`) are ASCII, `read_cmd` accumulates one decoded
character at a time up to and including the terminator and returns the first
two accumulated characters as the command and the characters from index 2 up
to but excluding the terminator as the parameter; a non-ASCII byte before
the terminator fails the decode instead, and a stream that never yields the
terminator produces no result. -/
theorem read_cmd_terminator_split :
    (∀ (cmd : String) (pre post : List Nat), isAsciiStr cmd = true →
      (∀ b ∈ pre, b < 128) → (59 : Nat) ∉ pre →
      read_cmd cmd (pre ++ 59 :: post)
        = ([cmd], .ok ⟨⟨(pre.map Char.ofNat ++ [';']).take 2⟩,
                       ⟨((pre.map Char.ofNat ++ [';']).drop 2).dropLast⟩⟩))
    ∧ (∀ (cmd : String) (input : List Nat), isAsciiStr cmd = true →
      (59 : Nat) ∉ input → ∃ e, read_cmd cmd input = ([cmd], .error e)) := by
  refine ⟨read_cmd_split_ok, ?_⟩
  intro cmd input hcmd hns
  obtain ⟨e, he⟩ := readUntilSemi_no_semi input [] hns
  exact ⟨e, by rw [read_cmd, if_pos hcmd, he]⟩

theorem read_cmd_terminator_split_witness :
    read_cmd "MC;" (strBytes "MC001" ++ 59 :: [])
      = (["MC;"], .ok ⟨⟨((strBytes "MC001").map Char.ofNat ++ [';']).take 2⟩,
                       ⟨(((strBytes "MC001").map Char.ofNat ++ [';']).drop 2).dropLast⟩⟩) :=
  read_cmd_terminator_split.1 "MC;" (strBytes "MC001") [] (by decide) (by decide) (by decide)

theorem readVfoWith_ok (cmd : String) (input : List Nat) (h12 : 12 ≤ input.length)
    (hascii : ∀ b ∈ input.take 12, b < 128) :
    readVfoWith cmd input
      = ([cmd], pyIntParse ⟨(((input.take 12).map Char.ofNat).drop 2).dropLast⟩) := by
  have h1 : pyReadN 12 input = .ok (input.take 12) := by rw [pyReadN, if_pos h12]
  have h2 : decodeAscii (input.take 12) = .ok ((input.take 12).map Char.ofNat) := by
    rw [decodeAscii, if_pos]
    simp only [List.all_eq_true, decide_eq_true_eq]
    exact hascii
  simp only [readVfoWith, h1, h2]

/-- C5: `read_vfo_frequency` rejects every vfo other than `"A"` / `"B"` with
an `InvalidArgument` error naming the bad value, before any I/O; for `"A"`
(resp. `"B"`) it writes `FA;` (resp. `FB;`), reads exactly 12 bytes, strips
the two-character prefix and the trailing terminator and parses the middle
9 characters as a base-10 integer; on the reply `FA014250000;`, `read_vfo_a`
returns `14250000`. -/
theorem read_vfo_frequency_spec :
    (∀ (vfo : String) (input : List Nat), vfo ≠ "A" → vfo ≠ "B" →
      read_vfo_frequency vfo input
        = ([], .error (.invalidArgument ("VFO " ++ vfo ++ " is not valid. Expected A or B"))))
    ∧ (∀ input : List Nat, 12 ≤ input.length → (∀ b ∈ input.take 12, b < 128) →
      read_vfo_frequency "A" input
          = (["FA;"], pyIntParse ⟨(((input.take 12).map Char.ofNat).drop 2).dropLast⟩)
        ∧ read_vfo_frequency "B" input
          = (["FB;"], pyIntParse ⟨(((input.take 12).map Char.ofNat).drop 2).dropLast⟩))
    ∧ read_vfo_a (strBytes "FA014250000;") = (["FA;"], .ok 14250000) := by
  refine ⟨?_, ?_, by decide⟩
  · intro vfo input hA hB
    rw [read_vfo_frequency, if_neg hA, if_neg hB]
  · intro input h12 hascii
    constructor
    · rw [read_vfo_frequency, if_pos rfl]
      exact readVfoWith_ok "FA;" input h12 hascii
    · rw [read_vfo_frequency, if_neg (by decide), if_pos rfl]
      exact readVfoWith_ok "FB;" input h12 hascii

theorem read_vfo_frequency_spec_witness :
    read_vfo_frequency "C" []
      = ([], .error (.invalidArgument ("VFO " ++ "C" ++ " is not valid. Expected A or B"))) :=
  read_vfo_frequency_spec.1 "C" [] (by decide) (by decide)

theorem mr_cmd_ascii (n : Nat) : isAsciiStr ("MR" ++ zeroPad3 n ++ ";") = true := by
  apply isAsciiStr_of
  intro c hc
  rw [String.data_append, String.data_append] at hc
  rcases List.mem_append.mp hc with h | h
  · rcases List.mem_append.mp h with h1 | h1
    · have hMR : c = 'M' ∨ c = 'R' := by simpa using h1
      rcases hMR with rfl | rfl <;> decide
    · exact zeroPadList_ascii _ _ c h1
  · simp only [List.mem_singleton] at h
    subst h
    decide

/-- C7: for an in-range channel `n` and a terminated reply stream,
`read_memory_channel` first transmits the `MC` frame of
`set_current_memory_channel(n)` and then `MR` + `n` zero-padded to 3 digits
+ `;`, decoding the reply parameter via the fixed-offset record; a parameter
shorter than 25 characters decodes to the absent result `none` rather than
an error, and one of length at least 25 decodes to the record of
fixed-offset substrings (`[0,3)`, `[3,12)`, `[12,17)`, `[17,18)`, `[18,19)`,
`[19,20)`, `[20,21)`, `[21,22)`, `[22,24)`, and the character at index 24). -/
theorem read_memory_channel_spec (n : Int) (pre post : List Nat)
    (h1 : 1 ≤ n) (h2 : n ≤ 117) (hpre : ∀ b ∈ pre, b < 128) (hns : (59 : Nat) ∉ pre) :
    read_memory_channel n (pre ++ 59 :: post)
      = (["MC" ++ zeroPad3 n.toNat ++ ";", "MR" ++ zeroPad3 n.toNat ++ ";"],
         .ok (decodeMemoryChannelRecord ⟨((pre.map Char.ofNat ++ [';']).drop 2).dropLast⟩))
    ∧ (∀ p : String, p.data.length < 25 → decodeMemoryChannelRecord p = none)
    ∧ (∀ p : String, 25 ≤ p.data.length →
        decodeMemoryChannelRecord p = some
          { memory_channel := ⟨(p.data.take 3).drop 0⟩
          , vfo_a_frequency_hz := ⟨(p.data.take 12).drop 3⟩
          , clarifier_direction := ⟨(p.data.take 17).drop 12⟩
          , rx_clar_status := ⟨(p.data.take 18).drop 17⟩
          , tx_clar_status := ⟨(p.data.take 19).drop 18⟩
          , mode := ⟨(p.data.take 20).drop 19⟩
          , vfo_or_memory := ⟨(p.data.take 21).drop 20⟩
          , ctcss_dcs := ⟨(p.data.take 22).drop 21⟩
          , nothing := ⟨(p.data.take 24).drop 22⟩
          , simplex_or_plus_or_minus_shift := ⟨(p.data.drop 24).take 1⟩ }) := by
  refine ⟨?_, ?_, ?_⟩
  · obtain ⟨hpad, hmc⟩ := set_current_memory_channel_in_range n h1 h2
    rw [read_memory_channel, hmc, hpad,
      read_cmd_split_ok _ pre post (mr_cmd_ascii n.toNat) hpre hns]
    rfl
  · intro p hp
    rw [decodeMemoryChannelRecord, if_neg (by omega)]
  · intro p hp
    rw [decodeMemoryChannelRecord, if_pos hp]
    rfl

theorem read_memory_channel_spec_witness :
    read_memory_channel 1 (strBytes "MR00114250000+0000000000000" ++ 59 :: [])
      = (["MC" ++ zeroPad3 (1 : Int).toNat ++ ";", "MR" ++ zeroPad3 (1 : Int).toNat ++ ";"],
         .ok (decodeMemoryChannelRecord
           ⟨(((strBytes "MR00114250000+0000000000000").map Char.ofNat ++ [';']).drop 2).dropLast⟩)) :=
  (read_memory_channel_spec 1 (strBytes "MR00114250000+0000000000000") []
    (by decide) (by decide) (by decide) (by decide)).1

theorem floor_mant_zpow (m : Nat) (e : Int) :
    ⌊(m : ℚ) * (10 : ℚ) ^ e⌋
      = ((if 0 ≤ e then m * 10 ^ e.toNat else m / 10 ^ (-e).toNat : ℕ) : Int) := by
  by_cases he : 0 ≤ e
  · rw [if_pos he]
    set t := e.toNat with ht
    have he2 : e = (t : ℤ) := by omega
    rw [he2, zpow_natCast]
    have h10 : ((10 : ℚ) ^ t) = ((10 ^ t : ℕ) : ℚ) := by push_cast; ring
    rw [h10, ← Nat.cast_mul, Int.floor_natCast]
  · rw [if_neg he]
    set j := (-e).toNat with hj
    have he2 : e = -(j : ℤ) := by omega
    rw [he2, zpow_neg, zpow_natCast]
    have h10 : ((10 : ℚ) ^ j) = ((10 ^ j : ℕ) : ℚ) := by push_cast; ring
    rw [h10, ← div_eq_mul_inv, Rat.floor_natCast_div_natCast]
    rfl

theorem pyIntTimesPow10_eq_ratTrunc (f : PyFloat) (k : Nat) :
    pyIntTimesPow10 f k = ratTrunc (ratValue f * (10 : ℚ) ^ k) := by
  obtain ⟨neg, m, e⟩ := f
  have hcomb : ratValue ⟨neg, m, e⟩ * (10 : ℚ) ^ k
      = (if neg then -(m : ℚ) else (m : ℚ)) * (10 : ℚ) ^ (e + (k : ℤ)) := by
    rw [ratValue, mul_assoc, ← zpow_natCast (10 : ℚ) k,
      ← zpow_add₀ (by norm_num : (10 : ℚ) ≠ 0)]
  rw [hcomb]
  cases neg with
  | false =>
    have hnonneg : (0 : ℚ) ≤ (m : ℚ) * (10 : ℚ) ^ (e + (k : ℤ)) := by positivity
    simp only [Bool.false_eq_true, if_false]
    rw [ratTrunc, if_neg (not_lt.mpr hnonneg), floor_mant_zpow]
    simp [pyIntTimesPow10]
  | true =>
    simp only [if_true]
    rcases Nat.eq_zero_or_pos m with rfl | hm
    · simp [pyIntTimesPow10, ratTrunc]
    · have hpos : (0 : ℚ) < (m : ℚ) * (10 : ℚ) ^ (e + (k : ℤ)) := by positivity
      have hq : (-(m : ℚ)) * (10 : ℚ) ^ (e + (k : ℤ)) < 0 := by
        rw [neg_mul]
        exact neg_lt_zero.mpr hpos
      rw [ratTrunc, if_pos hq, neg_mul, neg_neg, floor_mant_zpow]
      simp [pyIntTimesPow10]

theorem set_freq_hr_a_K_eq (body : List Char) :
    set_freq_human_readable_vfo_a ⟨body ++ ['K']⟩
      = match pyFloatParse ⟨body⟩ with
        | .error e => ([], .error e)
        | .ok f => set_frequency_hz_vfo_a (pyIntTimesPow10 f 3) := by
  simp only [set_freq_human_readable_vfo_a, List.getLast?_concat, List.dropLast_concat]
  rw [if_true]

theorem set_freq_hr_a_M_eq (body : List Char) :
    set_freq_human_readable_vfo_a ⟨body ++ ['M']⟩
      = match pyFloatParse ⟨body⟩ with
        | .error e => ([], .error e)
        | .ok f => set_frequency_hz_vfo_a (pyIntTimesPow10 f 6) := by
  simp only [set_freq_human_readable_vfo_a, List.getLast?_concat, List.dropLast_concat]
  rw [if_true, if_neg (show ¬('M' = 'K') by decide)]

theorem set_freq_hr_b_K_eq (body : List Char) :
    set_freq_human_readable_vfo_b ⟨body ++ ['K']⟩
      = match pyFloatParse ⟨body⟩ with
        | .error e => ([], .error e)
        | .ok f => set_frequency_hz_vfo_b (pyIntTimesPow10 f 3) := by
  simp only [set_freq_human_readable_vfo_b, List.getLast?_concat, List.dropLast_concat]
  rw [if_true]

theorem set_freq_hr_b_M_eq (body : List Char) :
    set_freq_human_readable_vfo_b ⟨body ++ ['M']⟩
      = match pyFloatParse ⟨body⟩ with
        | .error e => ([], .error e)
        | .ok f => set_frequency_hz_vfo_b (pyIntTimesPow10 f 6) := by
  simp only [set_freq_human_readable_vfo_b, List.getLast?_concat, List.dropLast_concat]
  rw [if_true, if_neg (show ¬('M' = 'K') by decide)]

theorem set_freq_hr_a_bare_eq (body : List Char) (c : Char) (hK : c ≠ 'K') (hM : c ≠ 'M') :
    set_freq_human_readable_vfo_a ⟨body ++ [c]⟩
      = match pyIntParse ⟨body ++ [c]⟩ with
        | .error e => ([], .error e)
        | .ok n => set_frequency_hz_vfo_a n := by
  simp only [set_freq_human_readable_vfo_a, List.getLast?_concat, if_neg hK, if_neg hM]

theorem set_freq_hr_b_bare_eq (body : List Char) (c : Char) (hK : c ≠ 'K') (hM : c ≠ 'M') :
    set_freq_human_readable_vfo_b ⟨body ++ [c]⟩
      = match pyIntParse ⟨body ++ [c]⟩ with
        | .error e => ([], .error e)
        | .ok n => set_frequency_hz_vfo_b n := by
  simp only [set_freq_human_readable_vfo_b, List.getLast?_concat, if_neg hK, if_neg hM]

theorem pow3_q : ((10 : ℚ) ^ (3 : ℕ)) = 1000 := by norm_num

theorem pow6_q : ((10 : ℚ) ^ (6 : ℕ)) = 1000000 := by norm_num

/-- C3: `set_freq_human_readable` multiplies the float value of the body by
1000 for a trailing `K` and by 1000000 for a trailing `M`, truncating (not
rounding) toward zero after the multiplication, takes a bare string as
integer Hz, and delegates to `set_frequency_hz`; `14313K`, `145.5M` and
`7127000` give the same commands as `set_frequency_hz` at 14313000,
145500000 and 7127000, and an invalid numeric portion fails with
`ParseError`.  (Python's IEEE-754 float step is modelled as exact rational
arithmetic; it is exact at the literals named in the claim.) -/
theorem set_freq_human_readable_spec :
    set_freq_human_readable_vfo_a "14313K" = set_frequency_hz_vfo_a 14313000
    ∧ set_freq_human_readable_vfo_a "145.5M" = set_frequency_hz_vfo_a 145500000
    ∧ set_freq_human_readable_vfo_a "7127000" = set_frequency_hz_vfo_a 7127000
    ∧ set_freq_human_readable_vfo_b "14313K" = set_frequency_hz_vfo_b 14313000
    ∧ (∀ (body : List Char) (f : PyFloat), pyFloatParse ⟨body⟩ = .ok f →
        set_freq_human_readable_vfo_a ⟨body ++ ['K']⟩
            = set_frequency_hz_vfo_a (ratTrunc (ratValue f * 1000))
          ∧ set_freq_human_readable_vfo_b ⟨body ++ ['K']⟩
            = set_frequency_hz_vfo_b (ratTrunc (ratValue f * 1000)))
    ∧ (∀ (body : List Char) (f : PyFloat), pyFloatParse ⟨body⟩ = .ok f →
        set_freq_human_readable_vfo_a ⟨body ++ ['M']⟩
            = set_frequency_hz_vfo_a (ratTrunc (ratValue f * 1000000))
          ∧ set_freq_human_readable_vfo_b ⟨body ++ ['M']⟩
            = set_frequency_hz_vfo_b (ratTrunc (ratValue f * 1000000)))
    ∧ (∀ (body : List Char) (c : Char) (n : Int), c ≠ 'K' → c ≠ 'M' →
        pyIntParse ⟨body ++ [c]⟩ = .ok n →
        set_freq_human_readable_vfo_a ⟨body ++ [c]⟩ = set_frequency_hz_vfo_a n
          ∧ set_freq_human_readable_vfo_b ⟨body ++ [c]⟩ = set_frequency_hz_vfo_b n)
    ∧ (∀ body : List Char, pyFloatParse ⟨body⟩ = .error .parseError →
        set_freq_human_readable_vfo_a ⟨body ++ ['K']⟩ = ([], .error .parseError)
          ∧ set_freq_human_readable_vfo_a ⟨body ++ ['M']⟩ = ([], .error .parseError)) := by
  refine ⟨by decide, by decide, by decide, by decide, ?_, ?_, ?_, ?_⟩
  · intro body f h
    rw [set_freq_hr_a_K_eq, set_freq_hr_b_K_eq, h]
    constructor
    · show set_frequency_hz_vfo_a (pyIntTimesPow10 f 3) = _
      rw [pyIntTimesPow10_eq_ratTrunc, pow3_q]
    · show set_frequency_hz_vfo_b (pyIntTimesPow10 f 3) = _
      rw [pyIntTimesPow10_eq_ratTrunc, pow3_q]
  · intro body f h
    rw [set_freq_hr_a_M_eq, set_freq_hr_b_M_eq, h]
    constructor
    · show set_frequency_hz_vfo_a (pyIntTimesPow10 f 6) = _
      rw [pyIntTimesPow10_eq_ratTrunc, pow6_q]
    · show set_frequency_hz_vfo_b (pyIntTimesPow10 f 6) = _
      rw [pyIntTimesPow10_eq_ratTrunc, pow6_q]
  · intro body c n hK hM h
    rw [set_freq_hr_a_bare_eq body c hK hM, set_freq_hr_b_bare_eq body c hK hM, h]
    exact ⟨rfl, rfl⟩
  · intro body h
    rw [set_freq_hr_a_K_eq, set_freq_hr_a_M_eq, h]
    exact ⟨rfl, rfl⟩

theorem set_freq_human_readable_spec_witness :
    set_freq_human_readable_vfo_a ⟨['2', 'K']⟩
      = set_frequency_hz_vfo_a (ratTrunc (ratValue ⟨false, 2, 0⟩ * 1000)) :=
  (set_freq_human_readable_spec.2.2.2.2.1 ['2'] ⟨false, 2, 0⟩ (by decide)).1
